import Mathlib

/-!
Verification of the geospatial habitat pipeline of the
`native-trees-react-leaflet` repository: species normalization
(`cleanTreeSpecies`), genus classification (`getGenusFromSpecies`,
`getColorForSpecies`), coordinate reprojection (`convertCoord`,
`reprojectFeature`), centroid computation (`getCentroid`), the habitat
enrichment pipeline (`enrichHabitats` / the enrichment loop of
`loadHabitatData`), the offline county partitioner (`scripts` split file),
and county-name normalization (`titleCaseCounty`).

Modelling conventions:
* JS numbers are modelled as `ℚ` (the claims concern exact arithmetic
  means and component order, not float rounding).
* JS strings are Lean `String`s; character-level JS operations
  (`trim`, regex `\b`, `\w`, `\s`) are modelled on `List Char` with the
  ASCII semantics that the JS regexes (`\w`, `\b`) themselves use.
* A thrown JS `TypeError` is modelled as `Except.error` with a message
  describing the throw site; code that cannot throw returns plain values.
* The proj4 coordinate transform is an external library call; it is
  modelled as an abstract parameter `t : Pos → Option Pos` where `none`
  models a throwing transform ("malformed input").
* `constants.ts` (the `speciesMap` and `treeColors` tables) is not part
  of the available sources; those two tables are modelled from the spec
  (see their doc comments).  All general theorems are parameterized over
  the tables, so nothing depends on the modelled entries except concrete
  witnesses and counterexamples.
-/

deriving instance DecidableEq for Except

/-! ## Characters and JS string primitives -/

/-- JS whitespace as used by `String.prototype.trim` and `\s`,
restricted to the common ASCII whitespace characters. -/
def isSpaceChar (c : Char) : Bool :=
  c = ' ' || c = '\t' || c = '\n' || c = '\r'

/-- The JS regex character class `\w` (ASCII): letters, digits, underscore. -/
def isWordChar (c : Char) : Bool :=
  c.isAlphanum || c = '_'

/-- `String.prototype.trim` on a character list: drop whitespace from
both ends. -/
def trimChars (l : List Char) : List Char :=
  ((l.dropWhile isSpaceChar).reverse.dropWhile isSpaceChar).reverse

/-- `String.prototype.trim`. -/
def jsTrim (s : String) : String :=
  ⟨trimChars s.data⟩

/-- `needle` is a prefix of the second list (char-exact). -/
def isPfx : List Char → List Char → Bool
  | [], _ => true
  | _ :: _, [] => false
  | a :: as, b :: bs => a = b && isPfx as bs

/-- `hay.includes(needle)` for character lists: `needle` occurs
contiguously in the second list. -/
def containsSub (needle : List Char) : List Char → Bool
  | [] => needle.isEmpty
  | c :: cs => isPfx needle (c :: cs) || containsSub needle cs

/-- `s.includes(needle)`, JS `String.prototype.includes`. -/
def containsSubStr (needle s : String) : Bool :=
  containsSub needle.data s.data

/-- Association-list lookup with decidable string equality (models JS
object property access `obj[key]`, key-presence based). -/
def slookup {α : Type} (k : String) : List (String × α) → Option α
  | [] => none
  | p :: ps => if p.1 = k then some p.2 else slookup k ps

/-! ## The species map (from `constants.ts`, not under `src/`) -/

/-- Modelled from the spec: `constants.ts` (the `SpeciesMap` table) is
imported by every pipeline file but is not among the available sources.
The spec describes it as "a static mapping from raw/abbreviated species
strings to canonical labels", with entries witnessed by the spec's
round-trip scenario (`"Q. robur"` ↦ `"Quercus robur"`) and the unit test
(`"F. excelsior"` ↦ `"Fraxinus excelsior"`).  Represented as an ordered
association list because iteration order is behavior-relevant (spec §9).
All general theorems are parameterized over an arbitrary table; this
concrete table is used only in witnesses and counterexamples. -/
def speciesMap : List (String × String) :=
  [("Q. robur", "Quercus robur"),
   ("F. excelsior", "Fraxinus excelsior"),
   ("Quercus robur", "Quercus robur"),
   ("Fraxinus excelsior", "Fraxinus excelsior"),
   ("Betula pubescens", "Betula pubescens"),
   ("Alnus glutinosa", "Alnus glutinosa")]

/-- JS truthiness test `if (speciesMap[trimmed])`: the key is present
and its value is a truthy (non-empty) string. -/
def smHit (sm : List (String × String)) (k : String) : Option String :=
  match slookup k sm with
  | some v => if v = "" then none else some v
  | none => none

/-! ## `cleanTreeSpecies` (src/utils.ts lines 11–44, part_011 lines 75–108) -/

/-- Prepend a character to the first part of a part list. -/
def consHead (c : Char) : List (List Char) → List (List Char)
  | [] => [[c]]
  | p :: ps => (c :: p) :: ps

/-- Split a character list at every hyphen or slash character.
The source splits with the regex "whitespace-star, then a hyphen or a
slash, then whitespace-star", followed by `filter(Boolean)`, and the
matching loop then trims each part.  That is equivalent to splitting at
the bare separator characters, trimming each part, and dropping empty
parts: the whitespace-star merely absorbs whitespace adjacent to a
separator, which trimming the parts also removes, and `filter(Boolean)`
drops the empty parts that adjacent separators produce. -/
def splitOnSep : List Char → List (List Char)
  | [] => [[]]
  | c :: cs =>
    if c = '-' ∨ c = '/' then [] :: splitOnSep cs
    else consHead c (splitOnSep cs)

/-- The sequence of trimmed, non-empty compound parts tested by the
`for (const part of parts)` loop of `cleanTreeSpecies`. -/
def partsOf (trimmed : String) : List String :=
  (((splitOnSep trimmed.data).map trimChars).filter (fun p => ¬p.isEmpty)).map
    (fun p => ⟨p⟩)

/-- The compound-part loop of `cleanTreeSpecies`: return the mapped
label of the first part that hits the species map. -/
def firstPartHit (sm : List (String × String)) (trimmed : String) : Option String :=
  (partsOf trimmed).findSome? (fun part => smHit sm part)

/-- The genus-substring fallback loop of `cleanTreeSpecies`: first map
entry whose key is longer than 2 characters and occurs in the trimmed
string; its value is returned without a truthiness check. -/
def genusScan (sm : List (String × String)) (trimmed : String) : Option String :=
  sm.findSome? (fun p =>
    if p.1.length ≤ 2 then none
    else if containsSub p.1.data trimmed.data then some p.2 else none)

/-- The `flatMap` body of `cleanTreeSpecies`: always emits exactly one
label per entry (exact map hit, first compound-part hit, first genus
substring hit, or the trimmed string itself). -/
def processEntry (sm : List (String × String)) (s : String) : List String :=
  let trimmed := jsTrim s
  match smHit sm trimmed with
  | some v => [v]
  | none =>
    match firstPartHit sm trimmed with
    | some v => [v]
    | none =>
      match genusScan sm trimmed with
      | some v => [v]
      | none => [trimmed]

/-- `cleanTreeSpecies` (identical in src/utils.ts and part_011): filter
falsy / "Not Determined" entries, emit one label per survivor, then
drop falsy (empty) labels. -/
def cleanTreeSpecies (sm : List (String × String)) (raw : List String) : List String :=
  ((raw.filter (fun s => s ≠ "" && !(containsSubStr "Not Determined" s))).flatMap
      (processEntry sm)).filter (fun v => v ≠ "")

/-! ## Genus classifier and style resolver
(src/utils.ts lines 76–98, part_011 lines 187–209) -/

/-- Modelled from the spec: `constants.ts` (the `treeColors` genus→color
table) is not among the available sources.  The spec describes it as "a
fixed ordered genus→color table"; genus keys are witnessed by the spec
(`Quercus`) and the test fixtures (`Alnus`, `Betula`, plus `Fraxinus`
from the unit tests).  The color values are unconstrained by the spec
and the claims; arbitrary distinct hex strings are used.  All general
theorems are parameterized over an arbitrary table; this concrete table
is used only in witnesses. -/
def treeColors : List (String × String) :=
  [("Quercus", "#2E8B57"),
   ("Fraxinus", "#6B8E23"),
   ("Betula", "#A0C49D"),
   ("Alnus", "#4F7942")]

/-- The shared scan of `getGenusFromSpecies` / `getColorForSpecies`:
first table entry whose genus key occurs in the species name. -/
def genusLoop (tc : List (String × String)) (s : String) : Option (String × String) :=
  tc.find? (fun p => containsSub p.1.data s.data)

/-- `getGenusFromSpecies`: null for falsy / "Unknown" input, else the
first genus key of the table that is a substring of the species name. -/
def getGenusFromSpecies (tc : List (String × String)) (s : String) : Option String :=
  if s = "" ∨ s = "Unknown" then none
  else (genusLoop tc s).map Prod.fst

/-- `getColorForSpecies`: neutral gray for falsy / "Unknown" input, else
the color of the first matching genus key, gray if none matches. -/
def getColorForSpecies (tc : List (String × String)) (s : String) : String :=
  if s = "" ∨ s = "Unknown" then "#808080"
  else ((genusLoop tc s).map Prod.snd).getD "#808080"

/-! ## Geometry, coordinates and reprojection
(src/utils.ts lines 46–73, part_011 lines 110–184) -/

/-- A GeoJSON position; JS numbers modelled as rationals. -/
abbrev Pos : Type := ℚ × ℚ

/-- The proj4 transform (an external library call), abstracted: `none`
models a throwing transform on malformed input. -/
def Transform : Type := Pos → Option Pos

/-- A GeoJSON geometry as handled by `reprojectFeature` / `getCentroid`. -/
inductive Geometry : Type
  | point (p : Pos)
  | polygon (rings : List (List Pos))
  | multiPolygon (polys : List (List (List Pos)))
deriving DecidableEq

/-- A raw feature: optional geometry (`null` modelled as `none`),
the two alternative raw species property names, and the COUNTY property.
The COUNTY property of a raw feature is either a single string, an array
of strings (multi-county sites), or absent. -/
inductive CountyVal : Type
  | str (s : String)
  | arr (l : List String)
  | absent
deriving DecidableEq

structure RawFeature : Type where
  geom : Option Geometry
  ns_species : Option String
  nsnw_desc : Option String
  county : CountyVal
deriving DecidableEq

/-- `convertCoord` (src/utils.ts lines 46–53, part_011 lines 110–117):
try the transform; on failure catch, log and return the original
coordinate.  The two sources differ only in the source-EPSG parameter,
which the abstract transform absorbs. -/
def convertCoord (t : Transform) (c : Pos) : Pos :=
  (t c).getD c

/-- `reprojectFeature` (src/utils.ts lines 56–73, part_011 lines
163–184): convert every coordinate of a Point / Polygon / MultiPolygon
geometry in the same nested shape; features without geometry are
returned unchanged. -/
def reprojectFeature (t : Transform) (f : RawFeature) : RawFeature :=
  match f.geom with
  | none => f
  | some (.point p) => { f with geom := some (.point (convertCoord t p)) }
  | some (.polygon rings) =>
    { f with geom := some (.polygon (rings.map (fun ring => ring.map (convertCoord t)))) }
  | some (.multiPolygon polys) =>
    { f with geom := some (.multiPolygon (polys.map (fun poly =>
        poly.map (fun ring => ring.map (convertCoord t))))) }

/-! ## Centroids and the enrichment pipelines -/

/-- Arithmetic mean of a list of rationals (`sum / length`; the empty
list gives `0/0`, which JS computes as `NaN` and `ℚ` as `0`; no claim
is stated at empty rings). -/
def meanQ (l : List ℚ) : ℚ :=
  l.sum / l.length

/-- `NS_SPECIES ?? NSNW_DESC ?? ''`: nullish coalescing of the two raw
species property names. -/
def rawSpecies (f : RawFeature) : String :=
  f.ns_species.getD (f.nsnw_desc.getD "")

/-- `cleanTreeSpecies([raw])[0] ?? 'Unknown'`. -/
def cleanedSpeciesOf (sm : List (String × String)) (f : RawFeature) : String :=
  (cleanTreeSpecies sm [rawSpecies f]).head?.getD "Unknown"

/-- The diagnostic `new Set(features.map((f) => f.geometry.type))`
computed at the top of both enrichment pipelines: dereferences the
geometry of every feature, throwing a TypeError when it is null. -/
def geomTypeName : Option Geometry → Except String String
  | none => Except.error "TypeError: cannot read properties of null (reading type)"
  | some (.point _) => Except.ok "Point"
  | some (.polygon _) => Except.ok "Polygon"
  | some (.multiPolygon _) => Except.ok "MultiPolygon"

/-- An enriched feature: the (reprojected) feature plus the attached
`cleanedSpecies`, `_centroid` and `_genus` properties. -/
structure EnrichedFeature : Type where
  base : RawFeature
  cleanedSpecies : String
  centroid : Pos
  genus : Option String
deriving DecidableEq

namespace CountyUtils

/-- `getCentroid` of part_011 (lines 119–128): mean of the first ring,
returned as `[lngSum / n, latSum / n]`, i.e. longitude first.  An empty
coordinate array throws (`coordinates[0]` is undefined and
`undefined.forEach` is a TypeError). -/
def getCentroid (coordinates : List (List Pos)) : Except String Pos :=
  match coordinates with
  | [] => Except.error "TypeError: cannot read properties of undefined (reading forEach)"
  | ring :: _ => Except.ok (meanQ (ring.map Prod.fst), meanQ (ring.map Prod.snd))

/-- `getCentroid(feature.geometry.coordinates)` as invoked by
`enrichHabitats` (part_011 line 60): dereferencing a null geometry
throws; a Point geometry throws inside `getCentroid` (its first
"ring" is a number, which has no `forEach`); a MultiPolygon silently
computes a junk value by JS string coercion (the sums become strings
and the divisions `NaN`), modelled as an unspecified pair — no claim
concerns MultiPolygon centroids. -/
def centroidStep : Option Geometry → Except String Pos
  | none => Except.error "TypeError: cannot read properties of null (reading coordinates)"
  | some (.point _) => Except.error "TypeError: ring.forEach is not a function"
  | some (.polygon rings) => getCentroid rings
  | some (.multiPolygon _) => Except.ok (0, 0)

/-- The per-feature enrichment body of `enrichHabitats` (part_011 lines
57–63): attach `cleanedSpecies`, `_centroid` and `_genus`. -/
def enrichFeature (sm tc : List (String × String)) (f : RawFeature) :
    Except String EnrichedFeature := do
  let c ← centroidStep f.geom
  let cl := cleanedSpeciesOf sm f
  Except.ok ⟨f, cl, c, getGenusFromSpecies tc cl⟩

/-- `enrichHabitats` (part_011 lines 47–73): the geometry-type
diagnostic (which dereferences every geometry), then reprojection of
every feature, then per-feature enrichment.  The trailing
species-frequency log is a pure diagnostic and is omitted. -/
def enrichHabitats (sm tc : List (String × String)) (t : Transform)
    (fs : List RawFeature) : Except String (List EnrichedFeature) := do
  let _ ← fs.mapM (fun f => geomTypeName f.geom)
  (fs.map (reprojectFeature t)).mapM (enrichFeature sm tc)

end CountyUtils

namespace AppUtils

/-- `getCentroid` of src/utils.ts (lines 104–115): same sums as the
part_011 version but returned as `[latSum / n, lonSum / n]`, i.e.
latitude first. -/
def getCentroid (coordinates : List (List Pos)) : Except String Pos :=
  match coordinates with
  | [] => Except.error "TypeError: cannot read properties of undefined (reading forEach)"
  | ring :: _ => Except.ok (meanQ (ring.map Prod.snd), meanQ (ring.map Prod.fst))

/-- `getCentroid(f.geometry.coordinates)` as invoked by the enrichment
loop of `loadHabitatData` (src/utils.ts line 162); geometry handling as
in `CountyUtils.centroidStep`. -/
def centroidStep : Option Geometry → Except String Pos
  | none => Except.error "TypeError: cannot read properties of null (reading coordinates)"
  | some (.point _) => Except.error "TypeError: ring.forEach is not a function"
  | some (.polygon rings) => getCentroid rings
  | some (.multiPolygon _) => Except.ok (0, 0)

/-- The per-feature enrichment body of `loadHabitatData`
(src/utils.ts lines 159–166). -/
def enrichFeature (sm tc : List (String × String)) (f : RawFeature) :
    Except String EnrichedFeature := do
  let c ← centroidStep f.geom
  let cl := cleanedSpeciesOf sm f
  Except.ok ⟨f, cl, c, getGenusFromSpecies tc cl⟩

/-- The enrichment portion of `loadHabitatData` (src/utils.ts lines
151–166): the geometry-type diagnostic, reprojection, then per-feature
enrichment.  The fetch / JSON-shape validation preceding it is I/O and
not part of any enrichment claim. -/
def enrichHabitats (sm tc : List (String × String)) (t : Transform)
    (fs : List RawFeature) : Except String (List EnrichedFeature) := do
  let _ ← fs.mapM (fun f => geomTypeName f.geom)
  (fs.map (reprojectFeature t)).mapM (enrichFeature sm tc)

end AppUtils

/-- The identity transform (a proj4 stand-in that succeeds everywhere),
used in concrete witnesses. -/
def idTransform : Transform := fun p => some p

/-! ## The offline county partitioner (part_011 lines 319–401) -/

namespace Splitter

/-- County derivation (line 354):
`(props?.COUNTY as string | undefined)?.trim() || 'Unknown'`.
An absent property yields `undefined`, hence `'Unknown'`; a string is
trimmed, the falsy empty result also yielding `'Unknown'`; an array has
no `trim` method, so the call throws a TypeError. -/
def deriveCounty : CountyVal → Except String String
  | .absent => Except.ok "Unknown"
  | .str s => Except.ok (if jsTrim s = "" then "Unknown" else jsTrim s)
  | .arr _ => Except.error "TypeError: props.COUNTY.trim is not a function"

/-- `byCounty.get(county) ?? []; arr.push(f); byCounty.set(county, arr)`
with JS `Map` insertion-order semantics: an existing key is updated in
place, a new key is appended. -/
def addToBucket (k : String) (f : RawFeature) :
    List (String × List RawFeature) → List (String × List RawFeature)
  | [] => [(k, [f])]
  | b :: bs => if b.1 = k then (b.1, b.2 ++ [f]) :: bs else b :: addToBucket k f bs

/-- The grouping loop of `main` (lines 352–367), restricted to its
bucket-building effect: derive each feature's county and append the
feature to that county's bucket; a thrown TypeError aborts the loop. -/
def groupByCounty : List RawFeature → List (String × List RawFeature) →
    Except String (List (String × List RawFeature))
  | [], acc => Except.ok acc
  | f :: fs, acc => do
    let k ← deriveCounty f.county
    groupByCounty fs (addToBucket k f acc)

/-- Collapse every whitespace run to a single underscore
(`.replace` of one-or-more whitespace with an underscore). -/
def squashSpaces : Bool → List Char → List Char
  | _, [] => []
  | prevSpace, c :: cs =>
    if isSpaceChar c then
      if prevSpace then squashSpaces true cs else '_' :: squashSpaces true cs
    else c :: squashSpaces false cs

/-- `normalizeCountyName` (lines 330–335): trim, whitespace runs to
underscores, then strip every character that is neither a word
character nor a hyphen. -/
def normalizeCountyName (s : String) : String :=
  ⟨(squashSpaces false (trimChars s.data)).filter (fun c => isWordChar c || c = '-')⟩

/-- `Array.sort((a, b) => a.localeCompare(b))`, modelled as insertion
sort under Lean's total `compare` on strings (the claims depend on the
sort being a deterministic pure function, not on the collation). -/
def insertSorted (s : String) : List String → List String
  | [] => [s]
  | t :: ts => if (compare s t).isLE then s :: t :: ts else t :: insertSorted s ts

def sortStrings (l : List String) : List String :=
  l.foldr insertSorted []

/-- JS `Set` insertion: keep the first occurrence of each element. -/
def dedupFirst (seen : List String) : List String → List String
  | [] => []
  | x :: xs => if x ∈ seen then dedupFirst seen xs else x :: dedupFirst (x :: seen) xs

/-- The genus set collected by the grouping loop (lines 357–362): the
distinct genera of the cleaned species of each feature, read-only (no
mutation of the features). -/
def generaOf (sm tc : List (String × String)) (fs : List RawFeature) : List String :=
  dedupFirst [] (fs.filterMap (fun f => getGenusFromSpecies tc (cleanedSpeciesOf sm f)))

/-- Contents written by the partitioner: a per-county shard feature
collection, or the index artifact (county list, genus list, file map). -/
inductive OutFile : Type
  | shard (features : List RawFeature)
  | index (counties : List String) (availableSpecies : List String)
      (files : List (String × String))
deriving DecidableEq

/-- The output directory as a mapping from file path to written
content (`none` = no file). -/
abbrev Store : Type := String → Option OutFile

def outDir : String := "public/data/habitats"

def indexOut : String := "public/data/index.json"

/-- `path.join(OUT_DIR, filename)` for a county's shard. -/
def outPath (county : String) : String :=
  outDir ++ "/" ++ normalizeCountyName county ++ ".json"

/-- The shard URL recorded in the index file map. -/
def filesEntry (county : String) : String :=
  "/data/habitats/" ++ normalizeCountyName county ++ ".json"

/-- The write list produced by one run of `main` (lines 337–396) on a
parsed input collection: group by county, sort the county keys, write
one shard per county, then write the index (county list without the
`"Unknown"` bucket, sorted genus list, county→URL file map). -/
def partitionOutputs (sm tc : List (String × String)) (fs : List RawFeature) :
    Except String (List (String × OutFile)) := do
  let buckets ← groupByCounty fs []
  let counties := sortStrings (buckets.map Prod.fst)
  let shardWrites := counties.map
    (fun c => (outPath c, OutFile.shard ((slookup c buckets).getD [])))
  let files := counties.map (fun c => (c, filesEntry c))
  Except.ok (shardWrites ++
    [(indexOut, OutFile.index (counties.filter (fun c => c ≠ "Unknown"))
        (sortStrings (generaOf sm tc fs)) files)])

/-- `fs.writeFile`: overwrite one path of the store. -/
def writeOne (st : Store) (w : String × OutFile) : Store :=
  fun q => if q = w.1 then some w.2 else st q

def applyWrites (ws : List (String × OutFile)) (st : Store) : Store :=
  ws.foldl writeOne st

/-- One run of `main` over the output directory state: on success the
computed writes are applied in order; a thrown error leaves the store
unchanged (all writes happen after the grouping loop has finished). -/
def partitionRun (sm tc : List (String × String)) (fs : List RawFeature)
    (st : Store) : Except String Store :=
  (partitionOutputs sm tc fs).map (fun ws => applyWrites ws st)

end Splitter

/-! ## County-name title-casing and shard resolution
(part_011 lines 216–247) -/

/-- The word-initial uppercasing pass of the regex replace "every word
character at a word boundary becomes uppercase": a word character is
uppercased exactly when the previous character was not a word character
(the boolean state; `false` at the start of the string). -/
def titleize (up : Char → Char) : Bool → List Char → List Char
  | _, [] => []
  | prev, c :: cs =>
    (if isWordChar c && !prev then up c else c) :: titleize up (isWordChar c) cs

/-- `titleCaseCounty` (part_011 lines 216–225), string branch (the
branch `loadHabitatsForCounty` exercises): lowercase, uppercase every
word-initial letter, then trim.  The JS Unicode case mappings
`toLowerCase` / `toUpperCase` are abstract parameters `low` / `up`; for
the ASCII county names they coincide with `Char.toLower` /
`Char.toUpper`, which concrete witnesses use. -/
def titleCaseCounty (low up : Char → Char) (raw : String) : String :=
  ⟨trimChars (titleize up false (raw.data.map low))⟩

/-- The shard-path resolution step of `loadHabitatsForCounty`
(part_011 lines 231–232): `index.files[titleCaseCounty(county)]`. -/
def habitatFileFor (low up : Char → Char) (files : List (String × String))
    (county : String) : Option String :=
  slookup (titleCaseCounty low up county) files

/-! ## Shared helper lemmas -/

theorem smHit_ne_empty {sm : List (String × String)} {k v : String}
    (h : smHit sm k = some v) : v ≠ "" := by
  unfold smHit at h
  split at h
  next w hw =>
    split at h
    next => exact absurd h (by simp)
    next hne =>
      injection h with hh
      subst hh
      exact hne
  next => exact absurd h (by simp)

theorem slookup_eq_none_of_not_mem {α : Type} {k : String} {l : List (String × α)}
    (h : k ∉ l.map Prod.fst) : slookup k l = none := by
  induction l with
  | nil => rfl
  | cons p ps ih =>
    simp only [List.map_cons, List.mem_cons] at h
    push_neg at h
    simp only [slookup]
    rw [if_neg (fun hpk => h.1 (hpk.symm)), ih h.2]

theorem firstPartHit_ne_empty {sm : List (String × String)} {s v : String}
    (h : firstPartHit sm s = some v) : v ≠ "" := by
  obtain ⟨part, _, hp⟩ := List.exists_of_findSome?_eq_some h
  exact smHit_ne_empty hp

/-! ## C7: per-coordinate best-effort reprojection -/

/-- Claim C7: for every single coordinate pair on which the projection
transform throws, `convertCoord` catches the error and returns the
original unconverted coordinate; `reprojectFeature` never propagates a
per-coordinate transform failure, and every coordinate of the feature
is (independently) passed through `convertCoord`, so the other
coordinates of the same feature are still converted — best-effort per
coordinate, not atomic per feature. -/
theorem c7_reproject_best_effort (t : Transform) (c c' p : Pos)
    (f : RawFeature) (rings : List (List Pos))
    (hfail : t c = none) (hok : t c' = some p)
    (hg : f.geom = some (.polygon rings)) :
    convertCoord t c = c ∧ convertCoord t c' = p ∧
    reprojectFeature t f =
      { f with geom := some (.polygon (rings.map (fun ring => ring.map (convertCoord t)))) } := by
  refine ⟨?_, ?_, ?_⟩
  · simp [convertCoord, hfail]
  · simp [convertCoord, hok]
  · simp [reprojectFeature, hg]

/-- A transform that fails at the origin and succeeds elsewhere, used to
witness C7 at a concrete feature. -/
def witTransform : Transform :=
  fun q => if q = ((0 : ℚ), (0 : ℚ)) then none else some (q.1 + 1, q.2)

theorem c7_witness :
    convertCoord witTransform (0, 0) = (0, 0) ∧
    convertCoord witTransform (1, 1) = (2, 1) ∧
    reprojectFeature witTransform ⟨some (.polygon [[(0, 0), (1, 1)]]), none, none, .absent⟩ =
      { geom := some (.polygon [[((0 : ℚ), (0 : ℚ)), (1, 1)].map (convertCoord witTransform)]),
        ns_species := none, nsnw_desc := none, county := .absent } :=
  c7_reproject_best_effort witTransform (0, 0) (1, 1) (2, 1)
    ⟨some (.polygon [[(0, 0), (1, 1)]]), none, none, .absent⟩ [[(0, 0), (1, 1)]]
    (by norm_num [witTransform]) (by norm_num [witTransform]) rfl

/-! ## C8: genus / color agreement -/

theorem genusLoop_slookup {tc : List (String × String)} {s : String}
    {k v : String} (hnd : (tc.map Prod.fst).Nodup)
    (h : genusLoop tc s = some (k, v)) : slookup k tc = some v := by
  induction tc with
  | nil => exact absurd h (by simp [genusLoop])
  | cons q rest ih =>
    simp only [List.map_cons, List.nodup_cons] at hnd
    unfold genusLoop at h
    rw [List.find?_cons] at h
    cases hq : containsSub q.1.data s.data with
    | true =>
      rw [hq] at h
      simp only [Option.some.injEq] at h
      subst h
      simp [slookup]
    | false =>
      rw [hq] at h
      have hk : k ∈ rest.map Prod.fst :=
        List.mem_map_of_mem Prod.fst (List.mem_of_find?_eq_some h)
      have hne : q.1 ≠ k := fun he => hnd.1 (he ▸ hk)
      simp only [slookup, if_neg hne]
      exact ih hnd.2 h

/-- Claim C8: `getColorForSpecies s` is the color mapped in the genus
table for `getGenusFromSpecies s` whenever the latter is non-null (both
scan the same ordered table for the first key that is a substring of
`s`), `getColorForSpecies s` is the neutral gray when the genus is
null, and both return their defaults (null / gray) on the empty string
and on `"Unknown"`. -/
theorem c8_genus_color_agreement (tc : List (String × String)) (s : String)
    (hnd : (tc.map Prod.fst).Nodup) :
    (∀ g, getGenusFromSpecies tc s = some g →
        slookup g tc = some (getColorForSpecies tc s)) ∧
    (getGenusFromSpecies tc s = none → getColorForSpecies tc s = "#808080") ∧
    getGenusFromSpecies tc "" = none ∧
    getGenusFromSpecies tc "Unknown" = none ∧
    getColorForSpecies tc "" = "#808080" ∧
    getColorForSpecies tc "Unknown" = "#808080" := by
  refine ⟨?_, ?_, rfl, rfl, rfl, rfl⟩
  · intro g hg
    unfold getGenusFromSpecies at hg
    by_cases hs : s = "" ∨ s = "Unknown"
    · rw [if_pos hs] at hg; exact absurd hg (by simp)
    · rw [if_neg hs] at hg
      cases hl : genusLoop tc s with
      | none => rw [hl] at hg; exact absurd hg (by simp)
      | some q =>
        rw [hl] at hg
        have hg2 : q.1 = g := by simpa using hg
        have hcolor : getColorForSpecies tc s = q.2 := by
          unfold getColorForSpecies
          rw [if_neg hs, hl]
          rfl
        rw [hcolor, ← hg2]
        exact genusLoop_slookup hnd hl
  · intro hg
    unfold getGenusFromSpecies at hg
    unfold getColorForSpecies
    by_cases hs : s = "" ∨ s = "Unknown"
    · rw [if_pos hs]
    · rw [if_neg hs] at hg ⊢
      cases hl : genusLoop tc s with
      | none => simp [hl]
      | some q => rw [hl] at hg; exact absurd hg (by simp)

theorem c8_witness :
    getGenusFromSpecies treeColors "Quercus robur" = some "Quercus" ∧
    slookup "Quercus" treeColors = some (getColorForSpecies treeColors "Quercus robur") :=
  ⟨by decide,
   (c8_genus_color_agreement treeColors "Quercus robur" (by decide)).1 "Quercus" (by decide)⟩

/-! ## C1: centroid component order -/

/-- A concrete polygon feature whose first ring is `[(1,2),(3,4)]`
(longitudes 1, 3; latitudes 2, 4), used in witnesses and
counterexamples. -/
def demoPolyFeature : RawFeature :=
  ⟨some (.polygon [[(1, 2), (3, 4)]]), some "Q. robur", none, .str "Dublin"⟩

/-- A concrete feature with missing (null) geometry. -/
def nullGeomFeature : RawFeature :=
  ⟨none, some "Q. robur", none, .str "Dublin"⟩

/-- Claim C1, amended: for a feature with a Polygon geometry, the
shard-based pipeline (`enrichHabitats` of part_011) attaches a
`_centroid` that is `[mean longitude, mean latitude]` over the
reprojected first ring, while the legacy pipeline of src/utils.ts
(`loadHabitatData`) attaches the swapped pair
`[mean latitude, mean longitude]`; both are computed by their
`getCentroid` on the already-reprojected first ring.  The final
conjunct ties the per-feature step to the pipeline. -/
theorem c1_centroid_pipeline (sm tc : List (String × String)) (t : Transform)
    (f : RawFeature) (ring : List Pos) (rest : List (List Pos))
    (hg : f.geom = some (.polygon (ring :: rest))) (hne : ring ≠ []) :
    (CountyUtils.enrichFeature sm tc (reprojectFeature t f)).map EnrichedFeature.centroid =
      Except.ok (meanQ ((ring.map (convertCoord t)).map Prod.fst),
                 meanQ ((ring.map (convertCoord t)).map Prod.snd)) ∧
    (AppUtils.enrichFeature sm tc (reprojectFeature t f)).map EnrichedFeature.centroid =
      Except.ok (meanQ ((ring.map (convertCoord t)).map Prod.snd),
                 meanQ ((ring.map (convertCoord t)).map Prod.fst)) ∧
    CountyUtils.enrichHabitats sm tc t [f] =
      (CountyUtils.enrichFeature sm tc (reprojectFeature t f)).map (fun e => [e]) := by
  have hre : (reprojectFeature t f).geom =
      some (.polygon ((ring.map (convertCoord t)) ::
        rest.map (fun r => r.map (convertCoord t)))) := by
    simp [reprojectFeature, hg]
  refine ⟨?_, ?_, ?_⟩
  · simp [CountyUtils.enrichFeature, CountyUtils.centroidStep, hre,
      CountyUtils.getCentroid, bind, Except.bind, Except.map]
  · simp [AppUtils.enrichFeature, AppUtils.centroidStep, hre,
      AppUtils.getCentroid, bind, Except.bind, Except.map]
  · simp [CountyUtils.enrichHabitats, List.mapM, List.mapM.loop, hg, geomTypeName,
      bind, Except.bind, CountyUtils.enrichFeature, CountyUtils.centroidStep, hre,
      CountyUtils.getCentroid, Except.map, pure, Except.pure]

/-- Claim C1 as stated is false on the src/utils.ts pipeline: for the
feature with first ring `[(1,2),(3,4)]` (under an identity transform),
the attached `_centroid` is `(3, 2)`, whose first component is 3 — the
mean of the latitudes — whereas the mean of the longitudes (first
coordinate components 1 and 3) is 2. -/
theorem c1_centroid_counterexample :
    (AppUtils.enrichHabitats speciesMap treeColors idTransform [demoPolyFeature]).map
      (List.map EnrichedFeature.centroid) = Except.ok [((3 : ℚ), 2)] ∧
    meanQ (([((1 : ℚ), (2 : ℚ)), (3, 4)].map (convertCoord idTransform)).map Prod.fst) = 2 ∧
    ((3 : ℚ), (2 : ℚ)).1 ≠ 2 := by
  refine ⟨?_, by norm_num [meanQ, convertCoord, idTransform], by norm_num⟩
  simp [AppUtils.enrichHabitats, AppUtils.enrichFeature, AppUtils.centroidStep,
    AppUtils.getCentroid, demoPolyFeature, geomTypeName, reprojectFeature, convertCoord,
    idTransform, meanQ, Except.map, bind, Except.bind, List.mapM, List.mapM.loop,
    pure, Except.pure]
  norm_num

theorem c1_witness :
    (CountyUtils.enrichFeature speciesMap treeColors
        (reprojectFeature idTransform demoPolyFeature)).map EnrichedFeature.centroid =
      Except.ok ((2 : ℚ), 3) ∧
    (AppUtils.enrichFeature speciesMap treeColors
        (reprojectFeature idTransform demoPolyFeature)).map EnrichedFeature.centroid =
      Except.ok ((3 : ℚ), 2) := by
  obtain ⟨h1, h2, -⟩ := c1_centroid_pipeline speciesMap treeColors idTransform
    demoPolyFeature [(1, 2), (3, 4)] [] rfl (by simp)
  refine ⟨?_, ?_⟩
  · rw [h1]; norm_num [meanQ, convertCoord, idTransform]
  · rw [h2]; norm_num [meanQ, convertCoord, idTransform]

/-! ## C2: missing geometry aborts the enrichment pipelines -/

/-- Claim C2 (code-bug evidence): a feature whose geometry is missing
aborts both enrichment pipelines with a thrown TypeError — the
geometry-type diagnostic dereferences `f.geometry.type`, and the
centroid step dereferences `f.geometry.coordinates`, neither guarded —
even though `reprojectFeature` itself tolerates the missing geometry
(last conjunct), showing the intended skip is defeated. -/
theorem c2_missing_geometry_aborts :
    CountyUtils.enrichHabitats speciesMap treeColors idTransform [nullGeomFeature] =
      Except.error "TypeError: cannot read properties of null (reading type)" ∧
    AppUtils.enrichHabitats speciesMap treeColors idTransform [nullGeomFeature] =
      Except.error "TypeError: cannot read properties of null (reading type)" ∧
    CountyUtils.enrichFeature speciesMap treeColors nullGeomFeature =
      Except.error "TypeError: cannot read properties of null (reading coordinates)" ∧
    AppUtils.enrichFeature speciesMap treeColors nullGeomFeature =
      Except.error "TypeError: cannot read properties of null (reading coordinates)" ∧
    reprojectFeature idTransform nullGeomFeature = nullGeomFeature :=
  ⟨rfl, rfl, rfl, rfl, rfl⟩

/-! ## C4: which entries cleanTreeSpecies discards -/

theorem processEntry_of_trim_empty {sm : List (String × String)} {s : String}
    (hk : "" ∉ sm.map Prod.fst) (h : jsTrim s = "") :
    processEntry sm s = [""] := by
  have h1 : smHit sm "" = none := by
    unfold smHit
    rw [slookup_eq_none_of_not_mem hk]
  have h3 : genusScan sm "" = none := by
    unfold genusScan
    rw [List.findSome?_eq_none_iff]
    intro p _
    by_cases hl : p.1.length ≤ 2
    · simp [hl]
    · have hc : containsSub p.1.data "".data = false := by
        cases hd : p.1.data with
        | nil =>
          exact absurd (show p.1.length ≤ 2 by
            simp [String.length, hd]) hl
        | cons c cs => simp [containsSub, hd]
      simp [hl, hc]
  simp only [processEntry, h, h1, h3]
  rfl

theorem processEntry_ne_empty {sm : List (String × String)} {s v : String}
    (hv : ∀ p ∈ sm, p.2 ≠ "") (hs : jsTrim s ≠ "")
    (h : processEntry sm s = [v]) : v ≠ "" := by
  simp only [processEntry] at h
  split at h
  next hw => injection h with h1; subst h1; exact smHit_ne_empty hw
  next =>
    split at h
    next hw => injection h with h1; subst h1; exact firstPartHit_ne_empty hw
    next =>
      split at h
      next hw =>
        injection h with h1
        subst h1
        obtain ⟨p, hp, hsome⟩ := List.exists_of_findSome?_eq_some hw
        split at hsome
        next => exact absurd hsome (by simp)
        next =>
          split at hsome
          next =>
            injection hsome with h2
            subst h2
            exact hv p hp
          next => exact absurd hsome (by simp)
      next => injection h with h1; subst h1; exact hs

theorem processEntry_singleton (sm : List (String × String)) (s : String) :
    ∃ v, processEntry sm s = [v] := by
  simp only [processEntry]
  split
  · exact ⟨_, rfl⟩
  split
  · exact ⟨_, rfl⟩
  split
  · exact ⟨_, rfl⟩
  · exact ⟨_, rfl⟩

/-- Claim C4, amended: `cleanTreeSpecies` discards exactly the entries
that are empty, contain `"Not Determined"`, or trim to the empty string
(whitespace-only entries, removed by the trailing falsy filter), and
emits exactly one cleaned label for every other entry; the output
length is the number of entries that survive all three conditions.
(The hypotheses say the species table has no empty key and no empty
value, true of any real table.) -/
theorem c4_discard_count (sm : List (String × String)) (raw : List String)
    (hk : "" ∉ sm.map Prod.fst) (hv : ∀ p ∈ sm, p.2 ≠ "") :
    (cleanTreeSpecies sm raw).length =
      (raw.filter (fun s =>
        s ≠ "" && !(containsSubStr "Not Determined" s) && jsTrim s ≠ "")).length := by
  induction raw with
  | nil => rfl
  | cons s l ih =>
    unfold cleanTreeSpecies at ih ⊢
    rw [List.filter_cons, List.filter_cons]
    by_cases hp : (decide (s ≠ "") && !(containsSubStr "Not Determined" s)) = true
    · rw [if_pos hp, List.flatMap_cons, List.filter_append, List.length_append]
      by_cases ht : jsTrim s = ""
      · rw [processEntry_of_trim_empty hk ht]
        have hcond : ¬((decide (s ≠ "") && !(containsSubStr "Not Determined" s) &&
            decide (jsTrim s ≠ "")) = true) := by
          rw [Bool.and_eq_true]
          rintro ⟨-, hc⟩
          exact absurd ht (by simpa using hc)
        rw [if_neg hcond]
        simpa using ih
      · obtain ⟨v, hpe⟩ := processEntry_singleton sm s
        have hvne := processEntry_ne_empty hv ht hpe
        rw [hpe]
        have hcond : (decide (s ≠ "") && !(containsSubStr "Not Determined" s) &&
            decide (jsTrim s ≠ "")) = true := by
          rw [Bool.and_eq_true]
          exact ⟨hp, by simpa using ht⟩
        rw [if_pos hcond]
        have hfv : List.filter (fun v => decide (v ≠ "")) [v] = [v] := by
          simp [hvne]
        rw [hfv, ih]
        simp only [List.length_cons, List.length_singleton, List.length_nil]
        omega
    · rw [if_neg hp]
      have hcond : ¬((decide (s ≠ "") && !(containsSubStr "Not Determined" s) &&
          decide (jsTrim s ≠ "")) = true) := by
        intro hcontra
        rw [Bool.and_eq_true] at hcontra
        exact hp hcontra.1
      rw [if_neg hcond]
      exact ih

/-- Claim C4 as stated is false: the whitespace-only entry `"   "` is
neither empty nor contains `"Not Determined"`, yet `cleanTreeSpecies`
discards it (its trimmed label is empty and the trailing falsy filter
removes it), so the output is shorter than the claim's count. -/
theorem c4_whitespace_counterexample :
    cleanTreeSpecies speciesMap ["   "] = [] ∧
    ("   " : String) ≠ "" ∧
    containsSubStr "Not Determined" "   " = false := by
  refine ⟨by decide, by decide, by decide⟩

theorem c4_witness :
    (cleanTreeSpecies speciesMap ["Q. robur", "", "Not Determined", "   "]).length = 1 :=
  (c4_discard_count speciesMap ["Q. robur", "", "Not Determined", "   "]
    (by decide) (by decide)).trans (by decide)

/-! ## C5: the compound-description splitting step -/

/-- Modelled from the spec: the splitting step exactly as claim C5 and
spec §4.2 word it — "split the trimmed string on a space-hyphen-space
separator or on a slash separator".  Used only to compare the claim's
description with the source behavior; the source regex also splits at
bare hyphens. -/
def specSplitParts : List Char → List (List Char)
  | [] => [[]]
  | ' ' :: '-' :: ' ' :: rest => [] :: specSplitParts rest
  | '/' :: rest => [] :: specSplitParts rest
  | c :: rest => consHead c (specSplitParts rest)

/-- Modelled from the spec: "exact-match each resulting part against
SpeciesMap in order; emit the first match". -/
def specFirstPartMatch (sm : List (String × String)) (trimmed : String) : Option String :=
  (specSplitParts trimmed.data).findSome? (fun part => slookup (⟨part⟩ : String) sm)

/-- Claim C5 as stated is false: the input
`"zzz-F. excelsior/Q. robur"` has no exact species-map match, and under
the claim's splitting (space-hyphen-space or slash only) the first
matching part is `"Q. robur"`, so the claim predicts the label
`"Quercus robur"`; the code's regex also splits the bare hyphen, finds
the part `"F. excelsior"` first, and emits `"Fraxinus excelsior"`. -/
theorem c5_split_counterexample :
    smHit speciesMap (jsTrim "zzz-F. excelsior/Q. robur") = none ∧
    specFirstPartMatch speciesMap (jsTrim "zzz-F. excelsior/Q. robur") =
      some "Quercus robur" ∧
    cleanTreeSpecies speciesMap ["zzz-F. excelsior/Q. robur"] = ["Fraxinus excelsior"] ∧
    ("Fraxinus excelsior" : String) ≠ "Quercus robur" := by
  refine ⟨by decide, by decide, by decide, by decide⟩

/-- Claim C5, amended: for a kept entry whose trimmed form has no exact
match, the code splits at every hyphen or slash with adjacent
whitespace absorbed (so bare hyphens inside compound words also split),
exact-matches each trimmed part in order, and emits the mapped label of
the first part that hits the species map. -/
theorem c5_compound_split (sm : List (String × String)) (s v : String)
    (hs : s ≠ "") (hm : containsSubStr "Not Determined" s = false)
    (hx : smHit sm (jsTrim s) = none) (hp : firstPartHit sm (jsTrim s) = some v) :
    cleanTreeSpecies sm [s] = [v] := by
  have hv : v ≠ "" := firstPartHit_ne_empty hp
  unfold cleanTreeSpecies
  rw [List.filter_cons]
  rw [if_pos (by rw [Bool.and_eq_true]; exact ⟨by simpa using hs, by simp [hm]⟩)]
  rw [List.filter_nil, List.flatMap_cons, List.flatMap_nil, List.append_nil]
  simp only [processEntry, hx, hp]
  simp [hv]

theorem c5_witness :
    cleanTreeSpecies speciesMap ["zzz-F. excelsior/Q. robur"] = ["Fraxinus excelsior"] :=
  c5_compound_split speciesMap "zzz-F. excelsior/Q. robur" "Fraxinus excelsior"
    (by decide) (by decide) (by decide) (by decide)

/-! ## C3 / C9: the county partition -/

namespace Splitter

theorem addToBucket_keys (k : String) (f : RawFeature) (acc : List (String × List RawFeature)) :
    (addToBucket k f acc).map Prod.fst =
      if k ∈ acc.map Prod.fst then acc.map Prod.fst else acc.map Prod.fst ++ [k] := by
  induction acc with
  | nil => simp [addToBucket]
  | cons b bs ih =>
    by_cases hb : b.1 = k
    · simp [addToBucket, hb]
    · simp only [addToBucket, if_neg hb, List.map_cons, ih, List.mem_cons]
      by_cases hm : k ∈ bs.map Prod.fst
      · rw [if_pos hm, if_pos (Or.inr hm)]
      · rw [if_neg hm, if_neg (by
          rintro (he | hm2)
          · exact hb he.symm
          · exact hm hm2)]
        simp

theorem addToBucket_keys_nodup {k : String} {f : RawFeature}
    {acc : List (String × List RawFeature)} (h : (acc.map Prod.fst).Nodup) :
    ((addToBucket k f acc).map Prod.fst).Nodup := by
  rw [addToBucket_keys]
  by_cases hm : k ∈ acc.map Prod.fst
  · rwa [if_pos hm]
  · rw [if_neg hm, List.nodup_append]
    exact ⟨h, List.nodup_singleton k, by simpa using fun hk => hm hk⟩

theorem addToBucket_coherent {k : String} {f : RawFeature}
    {acc : List (String × List RawFeature)}
    (hacc : ∀ b ∈ acc, ∀ g ∈ b.2, deriveCounty g.county = Except.ok b.1)
    (hf : deriveCounty f.county = Except.ok k) :
    ∀ b ∈ addToBucket k f acc, ∀ g ∈ b.2, deriveCounty g.county = Except.ok b.1 := by
  induction acc with
  | nil =>
    intro b hb g hg
    simp only [addToBucket, List.mem_singleton] at hb
    subst hb
    simp only [List.mem_singleton] at hg
    subst hg
    exact hf
  | cons b0 bs ih =>
    intro b hb g hg
    by_cases hb0 : b0.1 = k
    · simp only [addToBucket, if_pos hb0, List.mem_cons] at hb
      rcases hb with hb | hb
      · subst hb
        simp only [List.mem_append, List.mem_singleton] at hg
        rcases hg with hg | hg
        · exact hacc b0 (List.mem_cons_self b0 bs) g hg
        · subst hg
          rw [hf, hb0]
      · exact hacc b (List.mem_cons_of_mem b0 hb) g hg
    · simp only [addToBucket, if_neg hb0, List.mem_cons] at hb
      rcases hb with hb | hb
      · subst hb
        exact hacc b (List.mem_cons_self b bs) g hg
      · exact ih (fun b' hb' => hacc b' (List.mem_cons_of_mem b0 hb')) b hb g hg

theorem addToBucket_flatten (k : String) (f : RawFeature)
    (acc : List (String × List RawFeature)) :
    ((addToBucket k f acc).map Prod.snd).flatten.Perm
      (((acc.map Prod.snd).flatten) ++ [f]) := by
  induction acc with
  | nil => simp [addToBucket]
  | cons b bs ih =>
    by_cases hb : b.1 = k
    · simp only [addToBucket, if_pos hb, List.map_cons, List.flatten_cons]
      rw [List.append_assoc b.2 [f] ((bs.map Prod.snd).flatten),
        List.append_assoc b.2 ((bs.map Prod.snd).flatten) [f]]
      exact List.Perm.append_left b.2 (List.perm_append_comm)
    · simp only [addToBucket, if_neg hb, List.map_cons, List.flatten_cons]
      rw [List.append_assoc b.2 ((bs.map Prod.snd).flatten) [f]]
      exact List.Perm.append_left b.2 ih

theorem groupByCounty_ok_nodup :
    ∀ (fs : List RawFeature) (acc bk : List (String × List RawFeature)),
      groupByCounty fs acc = Except.ok bk →
      (acc.map Prod.fst).Nodup → (bk.map Prod.fst).Nodup := by
  intro fs
  induction fs with
  | nil =>
    intro acc bk h hacc
    injection h with h
    subst h
    exact hacc
  | cons f fs ih =>
    intro acc bk h hacc
    unfold groupByCounty at h
    cases hd : deriveCounty f.county with
    | error e => rw [hd] at h; exact absurd h (by simp [Bind.bind, Except.bind])
    | ok k =>
      rw [hd] at h
      exact ih (addToBucket k f acc) bk h (addToBucket_keys_nodup hacc)

theorem groupByCounty_ok_coherent :
    ∀ (fs : List RawFeature) (acc bk : List (String × List RawFeature)),
      groupByCounty fs acc = Except.ok bk →
      (∀ b ∈ acc, ∀ g ∈ b.2, deriveCounty g.county = Except.ok b.1) →
      (∀ b ∈ bk, ∀ g ∈ b.2, deriveCounty g.county = Except.ok b.1) := by
  intro fs
  induction fs with
  | nil =>
    intro acc bk h hacc
    injection h with h
    subst h
    exact hacc
  | cons f fs ih =>
    intro acc bk h hacc
    unfold groupByCounty at h
    cases hd : deriveCounty f.county with
    | error e => rw [hd] at h; exact absurd h (by simp [Bind.bind, Except.bind])
    | ok k =>
      rw [hd] at h
      exact ih (addToBucket k f acc) bk h (addToBucket_coherent hacc hd)

theorem groupByCounty_ok_flatten :
    ∀ (fs : List RawFeature) (acc bk : List (String × List RawFeature)),
      groupByCounty fs acc = Except.ok bk →
      ((bk.map Prod.snd).flatten).Perm (((acc.map Prod.snd).flatten) ++ fs) := by
  intro fs
  induction fs with
  | nil =>
    intro acc bk h
    injection h with h
    subst h
    simp
  | cons f fs ih =>
    intro acc bk h
    unfold groupByCounty at h
    cases hd : deriveCounty f.county with
    | error e => rw [hd] at h; exact absurd h (by simp [Bind.bind, Except.bind])
    | ok k =>
      rw [hd] at h
      have h1 := ih (addToBucket k f acc) bk h
      have h2 : ((((addToBucket k f acc).map Prod.snd).flatten) ++ fs).Perm
          ((((acc.map Prod.snd).flatten) ++ [f]) ++ fs) :=
        List.Perm.append_right fs (addToBucket_flatten k f acc)
      have h3 := h1.trans h2
      rwa [List.append_assoc, List.singleton_append] at h3

end Splitter

/-- Claim C3, amended: on any input whose COUNTY values are first-class
(no arrays), the partitioner's grouping assigns every raw feature to
exactly one county bucket — keyed by the trimmed COUNTY string,
defaulting to `"Unknown"` when the property is absent **or when the
trimmed string is empty** — so the buckets form a total,
non-overlapping partition: the bucket keys are pairwise distinct, every
bucket member derives exactly its bucket's key, the concatenation of
all buckets is a permutation of the input, and the bucket sizes sum to
the input length. -/
theorem c3_partition (fs : List RawFeature) (bk : List (String × List RawFeature))
    (h : Splitter.groupByCounty fs [] = Except.ok bk) :
    (bk.map Prod.fst).Nodup ∧
    (∀ b ∈ bk, ∀ g ∈ b.2, Splitter.deriveCounty g.county = Except.ok b.1) ∧
    ((bk.map Prod.snd).flatten).Perm fs ∧
    (bk.map (fun b => b.2.length)).sum = fs.length := by
  have hnd := Splitter.groupByCounty_ok_nodup fs [] bk h (by simp)
  have hco := Splitter.groupByCounty_ok_coherent fs [] bk h (by simp)
  have hpm := Splitter.groupByCounty_ok_flatten fs [] bk h
  simp only [List.map_nil, List.flatten_nil, List.nil_append] at hpm
  refine ⟨hnd, hco, hpm, ?_⟩
  have hlen := hpm.length_eq
  rw [List.length_flatten] at hlen
  rwa [List.map_map] at hlen

/-- Claim C3 as stated is false at a whitespace-only COUNTY value: the
feature is bucketed under `"Unknown"`, not under its trimmed COUNTY
string (which is the empty string), although the property is present. -/
theorem c3_whitespace_county_counterexample :
    Splitter.groupByCounty [⟨none, none, none, .str " "⟩] [] =
      Except.ok [("Unknown", [⟨none, none, none, .str " "⟩])] ∧
    jsTrim " " = "" ∧
    ("Unknown" : String) ≠ "" := by
  refine ⟨by decide, by decide, by decide⟩

theorem c3_witness :
    (([("Dublin", [(⟨none, some "Q. robur", none, .str "Dublin"⟩ : RawFeature),
        ⟨none, some "F. excelsior", none, .str "Dublin"⟩]),
       ("Cork", [⟨none, none, none, .str "Cork"⟩])].map
        (fun b => b.2.length)).sum = 3) ∧
    ([("Dublin", [(⟨none, some "Q. robur", none, .str "Dublin"⟩ : RawFeature),
        ⟨none, some "F. excelsior", none, .str "Dublin"⟩]),
      ("Cork", [⟨none, none, none, .str "Cork"⟩])].map Prod.fst).Nodup :=
  ⟨((c3_partition
      [⟨none, some "Q. robur", none, .str "Dublin"⟩,
       ⟨none, some "F. excelsior", none, .str "Dublin"⟩,
       ⟨none, none, none, .str "Cork"⟩] _ (by decide)).2.2.2).trans (by decide),
   (c3_partition
      [⟨none, some "Q. robur", none, .str "Dublin"⟩,
       ⟨none, some "F. excelsior", none, .str "Dublin"⟩,
       ⟨none, none, none, .str "Cork"⟩] _ (by decide)).1⟩

namespace Splitter

theorem deriveCounty_error {c : CountyVal} {e : String}
    (h : deriveCounty c = Except.error e) :
    e = "TypeError: props.COUNTY.trim is not a function" := by
  cases c with
  | str s => exact absurd h (by simp [deriveCounty])
  | arr l =>
    simp only [deriveCounty] at h
    injection h with h
    exact h.symm
  | absent => exact absurd h (by simp [deriveCounty])

theorem groupByCounty_error_of_array :
    ∀ (fs : List RawFeature) (acc : List (String × List RawFeature)),
      (∃ f ∈ fs, ∃ l, f.county = CountyVal.arr l) →
      groupByCounty fs acc =
        Except.error "TypeError: props.COUNTY.trim is not a function" := by
  intro fs
  induction fs with
  | nil =>
    intro acc h
    obtain ⟨f, hf, -⟩ := h
    exact absurd hf (by simp)
  | cons f0 fs ih =>
    intro acc h
    unfold groupByCounty
    cases hd : deriveCounty f0.county with
    | error e =>
      have he := deriveCounty_error hd
      subst he
      simp [Bind.bind, Except.bind, hd]
    | ok k =>
      obtain ⟨f, hf, l, ha⟩ := h
      rcases List.mem_cons.mp hf with hf0 | hfs
      · subst hf0
        rw [ha] at hd
        exact absurd hd (by simp [deriveCounty])
      · simp only [Bind.bind, Except.bind, hd]
        exact ih (addToBucket k f0 acc) ⟨f, hfs, l, ha⟩

end Splitter

/-- Claim C9: a raw feature whose COUNTY property is an array makes the
partitioner call `.trim()` on a non-string, which throws a TypeError
and aborts the whole run — the feature is not assigned to any bucket
(array counties included), and no output is produced. -/
theorem c9_array_county_aborts (sm tc : List (String × String)) (fs : List RawFeature)
    (f : RawFeature) (l : List String) (hmem : f ∈ fs) (ha : f.county = .arr l) :
    Splitter.partitionOutputs sm tc fs =
      Except.error "TypeError: props.COUNTY.trim is not a function" := by
  have hg := Splitter.groupByCounty_error_of_array fs [] ⟨f, hmem, l, ha⟩
  unfold Splitter.partitionOutputs
  simp [Bind.bind, Except.bind, hg]

theorem c9_witness :
    Splitter.partitionOutputs speciesMap treeColors
      [⟨none, none, none, .str "Dublin"⟩, ⟨none, none, none, .arr ["Dublin", "Cork"]⟩] =
      Except.error "TypeError: props.COUNTY.trim is not a function" :=
  c9_array_county_aborts speciesMap treeColors _
    ⟨none, none, none, .arr ["Dublin", "Cork"]⟩ ["Dublin", "Cork"] (by decide) rfl

/-! ## C6: determinism and idempotence of the partitioner -/

namespace Splitter

/-- The last write to a path in a write list (later writes win). -/
def lastWrite (q : String) : List (String × OutFile) → Option OutFile
  | [] => none
  | w :: ws =>
    match lastWrite q ws with
    | some v => some v
    | none => if q = w.1 then some w.2 else none

theorem applyWrites_lookup (ws : List (String × OutFile)) (st : Store) (q : String) :
    applyWrites ws st q =
      match lastWrite q ws with
      | some v => some v
      | none => st q := by
  induction ws generalizing st with
  | nil => rfl
  | cons w ws ih =>
    show applyWrites ws (writeOne st w) q = _
    rw [ih]
    cases hl : lastWrite q ws with
    | some v => simp [lastWrite, hl]
    | none =>
      simp only [lastWrite, hl, writeOne]
      by_cases hq : q = w.1
      · rw [if_pos hq, if_pos hq]
      · rw [if_neg hq, if_neg hq]

theorem applyWrites_idem (ws : List (String × OutFile)) (st : Store) :
    applyWrites ws (applyWrites ws st) = applyWrites ws st := by
  funext q
  rw [applyWrites_lookup, applyWrites_lookup]
  cases hl : lastWrite q ws with
  | some v => rfl
  | none => rfl

end Splitter

/-- Claim C6: the partitioner's outputs are a pure function of the
parsed input (`partitionOutputs` has no other arguments), and one run
is idempotent on the output-directory state: if a run from state `st`
succeeds producing state `st'`, running again over `st'` succeeds and
reproduces exactly `st'` — identical shard contents for every county
and an identical index artifact. -/
theorem c6_partitioner_idempotent (sm tc : List (String × String))
    (fs : List RawFeature) (st st' : Splitter.Store)
    (h : Splitter.partitionRun sm tc fs st = Except.ok st') :
    Splitter.partitionRun sm tc fs st' = Except.ok st' := by
  unfold Splitter.partitionRun at h ⊢
  cases hw : Splitter.partitionOutputs sm tc fs with
  | error e => rw [hw] at h; exact absurd h (by simp [Except.map])
  | ok ws =>
    rw [hw] at h
    simp only [Except.map] at h ⊢
    injection h with h
    rw [← h, Splitter.applyWrites_idem]

/-- Two concrete features and the store their partition produces, used
to witness C6. -/
def demoRunFeatures : List RawFeature :=
  [⟨none, some "Q. robur", none, .str "Dublin"⟩, ⟨none, none, none, .str "Cork"⟩]

def emptyStore : Splitter.Store := fun _ => none

def demoStore : Splitter.Store :=
  Splitter.applyWrites
    ((Splitter.partitionOutputs speciesMap treeColors demoRunFeatures).toOption.getD [])
    emptyStore

theorem c6_witness :
    Splitter.partitionRun speciesMap treeColors demoRunFeatures demoStore =
      Except.ok demoStore :=
  c6_partitioner_idempotent speciesMap treeColors demoRunFeatures emptyStore demoStore rfl

/-! ## C10: shard resolution is casing / whitespace insensitive -/

theorem space_not_word {c : Char} (h : isSpaceChar c = true) : isWordChar c = false := by
  have hc := h
  simp only [isSpaceChar, Bool.or_eq_true, decide_eq_true_eq] at hc
  rcases hc with ((h | h) | h) | h <;> subst h <;> decide

theorem titleize_all_space (up : Char → Char) (b : Bool) (ws : List Char)
    (h : ∀ c ∈ ws, isSpaceChar c = true) : titleize up b ws = ws := by
  induction ws generalizing b with
  | nil => rfl
  | cons c cs ih =>
    have hw : isWordChar c = false := space_not_word (h c (List.mem_cons_self c cs))
    simp only [titleize, hw, Bool.false_and, if_neg (by simp : ¬((false : Bool) = true))]
    rw [ih false (fun d hd => h d (List.mem_cons_of_mem c hd))]

theorem titleize_append_front (up : Char → Char) (ws y : List Char)
    (h : ∀ c ∈ ws, isSpaceChar c = true) :
    titleize up false (ws ++ y) = ws ++ titleize up false y := by
  induction ws with
  | nil => rfl
  | cons c cs ih =>
    have hw : isWordChar c = false := space_not_word (h c (List.mem_cons_self c cs))
    simp only [List.cons_append, titleize, hw, Bool.false_and,
      if_neg (by simp : ¬((false : Bool) = true)), List.append_eq]
    rw [ih (fun d hd => h d (List.mem_cons_of_mem c hd))]

theorem titleize_append_back (up : Char → Char) (b : Bool) (y ws : List Char)
    (h : ∀ c ∈ ws, isSpaceChar c = true) :
    titleize up b (y ++ ws) = titleize up b y ++ ws := by
  induction y generalizing b with
  | nil => simpa using titleize_all_space up b ws h
  | cons c cs ih =>
    simp only [List.cons_append, titleize, List.append_eq]
    rw [ih (isWordChar c)]

theorem dropWhile_append_of_forall {p : Char → Bool} {a y : List Char}
    (h : ∀ c ∈ a, p c = true) :
    List.dropWhile p (a ++ y) = List.dropWhile p y := by
  induction a with
  | nil => rfl
  | cons c cs ih =>
    rw [List.cons_append, List.dropWhile_cons, if_pos (h c (List.mem_cons_self c cs))]
    exact ih (fun d hd => h d (List.mem_cons_of_mem c hd))

theorem trim_append_space_front {a y : List Char} (h : ∀ c ∈ a, isSpaceChar c = true) :
    trimChars (a ++ y) = trimChars y := by
  unfold trimChars
  rw [dropWhile_append_of_forall h]

theorem trim_append_space_back {y b : List Char} (h : ∀ c ∈ b, isSpaceChar c = true) :
    trimChars (y ++ b) = trimChars y := by
  unfold trimChars
  rw [List.dropWhile_append]
  by_cases hy : (List.dropWhile isSpaceChar y).isEmpty = true
  · rw [if_pos hy]
    have hb : List.dropWhile isSpaceChar b = [] := by
      have hb0 := dropWhile_append_of_forall h (y := [])
      simpa using hb0
    have hy' : List.dropWhile isSpaceChar y = [] := by
      simpa [List.isEmpty_iff] using hy
    rw [hb, hy']
  · rw [if_neg hy, List.reverse_append,
      dropWhile_append_of_forall (fun c hc => h c (List.mem_reverse.mp hc))]

theorem exists_trim_decomposition (l : List Char) :
    ∃ a b, (∀ c ∈ a, isSpaceChar c = true) ∧ (∀ c ∈ b, isSpaceChar c = true) ∧
      l = a ++ (trimChars l ++ b) := by
  refine ⟨l.takeWhile isSpaceChar,
    ((l.dropWhile isSpaceChar).reverse.takeWhile isSpaceChar).reverse,
    fun c hc => List.mem_takeWhile_imp hc,
    fun c hc => List.mem_takeWhile_imp (List.mem_reverse.mp hc), ?_⟩
  conv_lhs => rw [← List.takeWhile_append_dropWhile (p := isSpaceChar) (l := l)]
  congr 1
  unfold trimChars
  conv_lhs => rw [← List.reverse_reverse (l.dropWhile isSpaceChar),
    ← List.takeWhile_append_dropWhile (p := isSpaceChar)
      (l := (l.dropWhile isSpaceChar).reverse)]
  rw [List.reverse_append]

theorem trim_titleize_trim (up : Char → Char) (l : List Char) :
    trimChars (titleize up false l) = trimChars (titleize up false (trimChars l)) := by
  obtain ⟨a, b, ha, hb, hdec⟩ := exists_trim_decomposition l
  have h1 : titleize up false l = a ++ (titleize up false (trimChars l) ++ b) := by
    conv_lhs => rw [hdec]
    rw [titleize_append_front up a _ ha, titleize_append_back up false _ b hb]
  rw [h1, trim_append_space_front ha, trim_append_space_back hb]

/-- Claim C10: `loadHabitatsForCounty` resolves the shard path through
`titleCaseCounty`, so two county strings that differ only in letter
casing or surrounding whitespace (formally: agree after lowercasing and
trimming) resolve the same shard file against every index file map; in
particular (second conjunct, with the concrete ASCII case mappings) the
all-lowercase county name passed by the UI resolves the title-cased key
stored in the index. -/
theorem c10_county_casing_insensitive (low up : Char → Char)
    (files : List (String × String)) (s t : String)
    (h : trimChars (s.data.map low) = trimChars (t.data.map low)) :
    habitatFileFor low up files s = habitatFileFor low up files t ∧
    habitatFileFor Char.toLower Char.toUpper
      [("Dublin", "/data/habitats/Dublin.json")] "dublin" =
      some "/data/habitats/Dublin.json" := by
  refine ⟨?_, by decide⟩
  unfold habitatFileFor titleCaseCounty
  have heq : trimChars (titleize up false (s.data.map low)) =
      trimChars (titleize up false (t.data.map low)) := by
    rw [trim_titleize_trim, h, ← trim_titleize_trim]
  rw [heq]

theorem c10_witness :
    habitatFileFor Char.toLower Char.toUpper
      [("Dublin", "/data/habitats/Dublin.json")] " DUBLIN " =
    habitatFileFor Char.toLower Char.toUpper
      [("Dublin", "/data/habitats/Dublin.json")] "dublin" :=
  (c10_county_casing_insensitive Char.toLower Char.toUpper
    [("Dublin", "/data/habitats/Dublin.json")] " DUBLIN " "dublin" (by decide)).1
